import Mathlib

/-!
# gpt-load: configuration synchronisation and secure configuration

A shallow embedding of

* `internal/config/secure.go`  (`SecureConfigManager`: key normalisation,
  `EncryptDatabaseConfig`, `DecryptDatabaseConfig`, `ValidateSecureConfig`),
* `internal/config/sync.go`    (`ConfigSync`: `UpdateSettings`, `triggerCallbacks`,
  `applyUpdates`, `GetSettings`),
* `internal/handler/config_sync_handler.go` (`validateUpdates`, `UpdateConfig`).

Go strings are byte sequences, so a Go `string` and a Go `[]byte` are both
modelled by `Bytes`; `len`, slicing and concatenation are the list operations.
-/

namespace GptLoad

/-! ## Byte strings -/

/-- A Go `string` or `[]byte`: a finite sequence of bytes. -/
abbrev Bytes := List UInt8

/-- The bytes of a Go string literal (its UTF-8 encoding). -/
def gs (s : String) : Bytes := s.data.flatMap String.utf8EncodeChar

/-- Go `strings.HasPrefix`. -/
def HasPrefix (s pre : Bytes) : Bool := s.take pre.length == pre

/-- Go `strings.TrimPrefix`. -/
def TrimPrefix (s pre : Bytes) : Bytes := if HasPrefix s pre then s.drop pre.length else s

/-! ## `encoding/base64`, `StdEncoding`

The standard alphabet with `=` padding, non-strict. `DecodeString` skips the
bytes `\r` and `\n` wherever they occur and otherwise wants whole 4-byte
quanta, the last of which may end in `=` or `==`. -/

/-- The alphabet constant `encodeStd` of `encoding/base64`. -/
def encodeStd : Bytes := gs "ABCDEFGHIJKLMNOPQRSTUVWXYZabcdefghijklmnopqrstuvwxyz0123456789+/"

/-- The padding character `StdPadding`, the byte `=`. -/
def padChar : UInt8 := 61

/-- The entry `enc.encode[i]`. -/
def encChar (i : Nat) : UInt8 := encodeStd.getD i 0

/-- The entry `enc.decodeMap[c]`; `none` stands for the table's `0xff`. -/
def decodeMap (c : UInt8) : Option Nat :=
  let i := encodeStd.indexOf c
  if i < 64 then some i else none

/-- The 24-bit value `src[0]<<16 | src[1]<<8 | src[2]` of a 3-byte group. -/
def val24 (a b c : UInt8) : Nat := a.toNat * 65536 + b.toNat * 256 + c.toNat

/-- `EncodeToString` of `StdEncoding`. -/
def EncodeToString : Bytes → Bytes
  | [] => []
  | [a] =>
      let v := val24 a 0 0
      [encChar (v / 262144 % 64), encChar (v / 4096 % 64), padChar, padChar]
  | [a, b] =>
      let v := val24 a b 0
      [encChar (v / 262144 % 64), encChar (v / 4096 % 64), encChar (v / 64 % 64), padChar]
  | a :: b :: c :: rest =>
      let v := val24 a b c
      encChar (v / 262144 % 64) :: encChar (v / 4096 % 64) :: encChar (v / 64 % 64)
        :: encChar (v % 64) :: EncodeToString rest

/-- The value `dbuf[0]<<18 | dbuf[1]<<12 | dbuf[2]<<6 | dbuf[3]` of a quantum. -/
def quantum (d0 d1 d2 d3 : Nat) : Nat := d0 * 262144 + d1 * 4096 + d2 * 64 + d3

/-- The quanta of `decodeQuantum`, on input from which `\r` and `\n` are gone. -/
def decodeQuanta : Bytes → Option Bytes
  | [] => some []
  | [a, b, c, d] =>
      match decodeMap a, decodeMap b with
      | some d0, some d1 =>
          if c = padChar then
            -- "==" is expected, the first "=" is already consumed
            if d = padChar then some [UInt8.ofNat (quantum d0 d1 0 0 / 65536 % 256)] else none
          else
            match decodeMap c with
            | none => none
            | some d2 =>
                if d = padChar then
                  let v := quantum d0 d1 d2 0
                  some [UInt8.ofNat (v / 65536 % 256), UInt8.ofNat (v / 256 % 256)]
                else
                  match decodeMap d with
                  | none => none
                  | some d3 =>
                      let v := quantum d0 d1 d2 d3
                      some [UInt8.ofNat (v / 65536 % 256), UInt8.ofNat (v / 256 % 256),
                        UInt8.ofNat (v % 256)]
      | _, _ => none
  | a :: b :: c :: d :: rest =>
      match decodeMap a, decodeMap b, decodeMap c, decodeMap d with
      | some d0, some d1, some d2, some d3 =>
          let v := quantum d0 d1 d2 d3
          match decodeQuanta rest with
          | none => none
          | some out =>
              some (UInt8.ofNat (v / 65536 % 256) :: UInt8.ofNat (v / 256 % 256)
                :: UInt8.ofNat (v % 256) :: out)
      | _, _, _, _ => none
  | _ => none

/-- `DecodeString` of `StdEncoding`: `none` is a `CorruptInputError`. -/
def DecodeString (s : Bytes) : Option Bytes :=
  decodeQuanta (s.filter (fun c => c != 10 && c != 13))

/-! ## `crypto/aes`, `crypto/cipher`, `crypto/rand`

AES-GCM is taken as an authenticated cipher given by its two operations and
the one law the development relies on. -/

/-- An AEAD: `Seal key nonce plaintext` is ciphertext and tag, `Open` gives the
plaintext back or fails authentication (`none`). -/
structure AEAD where
  Seal : Bytes → Bytes → Bytes → Bytes
  Open : Bytes → Bytes → Bytes → Option Bytes
  open_seal : ∀ key nonce p, Open key nonce (Seal key nonce p) = some p

/-- The errors of the configuration package. -/
inductive Error where
  | keySize (n : Nat)            -- aes.KeySizeError
  | unexpectedEOF                -- io.ErrUnexpectedEOF / io.EOF of the random source
  | corruptInput                 -- base64.CorruptInputError
  | ciphertextTooShort           -- "ciphertext too short"
  | authFailed                   -- cipher: message authentication failed
  | emptyDSN                     -- "数据库DSN不能为空"
  | marshal                      -- an error of json.Marshal
  | publish                      -- an error of store.Publish
  | base                         -- an error of the base manager's Validate
  | validation (msg : List UInt8)   -- fmt.Errorf(msg) of validateUpdates
  | wrap (msg : String) (inner : Error)   -- fmt.Errorf("msg: %w", inner)
  deriving DecidableEq, Repr

/-- `aes.NewCipher`: the key must have 16, 24 or 32 bytes. -/
def NewCipher (key : Bytes) : Except Error Unit :=
  if key.length = 16 ∨ key.length = 24 ∨ key.length = 32 then .ok () else .error (.keySize key.length)

/-- `gcm.NonceSize()` of the standard GCM. -/
def NonceSize : Nat := 12

/-- `io.ReadFull(rand.Reader, buf)` for a buffer of `n` bytes, `src` being the
bytes the random source can deliver: exactly `n` bytes or an error. -/
def ReadFull (src : Bytes) (n : Nat) : Except Error Bytes :=
  if n ≤ src.length then .ok (src.take n) else .error .unexpectedEOF

/-! ## `internal/config/secure.go` -/

/-- The constant prefix of an encrypted value. -/
def encryptedPrefix : Bytes := gs "encrypted:"

/-- The fallback key of `NewSecureConfigManager`. -/
def defaultKey : Bytes := gs "default-encryption-key-change-in-production"

/-- A log record: level and message. -/
inductive Log where
  | warn (msg : String)
  | info (msg : String)
  deriving DecidableEq, Repr

/-- The base manager as the secure manager sees it: the result of `Validate()`
and the DSN of `GetDatabaseConfig()`. -/
structure Manager where
  validate : Option Error
  DSN : Bytes

/-- `SecureConfigManager` (the `configSync` link is passed where it is used). -/
structure SecureConfigManager where
  baseManager : Manager
  encryptionKey : Bytes

/-- The key of `NewSecureConfigManager` after the fallback: `key` is the value
of `CONFIG_ENCRYPTION_KEY`. -/
def sourceKey (key : Bytes) : Bytes := if key = [] then defaultKey else key

/-- The key normalisation of `NewSecureConfigManager`. -/
def normalizeKey (key : Bytes) : Bytes :=
  if key.length < 32 then key ++ List.replicate (32 - key.length) 0
  else if key.length > 32 then key.take 32
  else key

/-- `NewSecureConfigManager`; `envKey` is `os.Getenv("CONFIG_ENCRYPTION_KEY")`.
Returns the manager and the records logged. -/
def NewSecureConfigManager (baseManager : Manager) (envKey : Bytes) :
    SecureConfigManager × List Log :=
  let logs := if envKey = [] then [Log.warn "CONFIG_ENCRYPTION_KEY 未配置，敏感配置将以明文存储"] else []
  ({ baseManager := baseManager, encryptionKey := normalizeKey (sourceKey envKey) }, logs)

/-- `SecureConfigManager.encrypt`; `rnd` is what `rand.Reader` can deliver. -/
def SecureConfigManager.encrypt (A : AEAD) (scm : SecureConfigManager) (rnd : Bytes)
    (plaintext : Bytes) : Bytes × Option Error :=
  match NewCipher scm.encryptionKey with
  | .error e => ([], some e)
  | .ok _ =>
    match ReadFull rnd NonceSize with
    | .error e => ([], some e)
    | .ok nonce =>
      -- gcm.Seal(nonce, nonce, plaintext, nil): appended to the nonce
      let ciphertext := nonce ++ A.Seal scm.encryptionKey nonce plaintext
      (EncodeToString ciphertext, none)

/-- `SecureConfigManager.decrypt`. -/
def SecureConfigManager.decrypt (A : AEAD) (scm : SecureConfigManager)
    (ciphertext : Bytes) : Bytes × Option Error :=
  match DecodeString ciphertext with
  | none => ([], some .corruptInput)
  | some data =>
    match NewCipher scm.encryptionKey with
    | .error e => ([], some e)
    | .ok _ =>
      if data.length < NonceSize then ([], some .ciphertextTooShort)
      else
        let nonce := data.take NonceSize
        let ciphertextData := data.drop NonceSize
        match A.Open scm.encryptionKey nonce ciphertextData with
        | none => ([], some .authFailed)
        | some plaintext => (plaintext, none)

/-- `SecureConfigManager.EncryptDatabaseConfig`. -/
def SecureConfigManager.EncryptDatabaseConfig (A : AEAD) (scm : SecureConfigManager)
    (rnd : Bytes) (dsn : Bytes) : Bytes × Option Error :=
  if dsn = [] then ([], none)
  else if HasPrefix dsn encryptedPrefix then (dsn, none)
  else
    match scm.encrypt A rnd dsn with
    | (_, some err) => ([], some (.wrap "加密数据库配置失败" err))
    | (encrypted, none) => (encryptedPrefix ++ encrypted, none)

/-- `SecureConfigManager.DecryptDatabaseConfig`. -/
def SecureConfigManager.DecryptDatabaseConfig (A : AEAD) (scm : SecureConfigManager)
    (encryptedDSN : Bytes) : Bytes × Option Error :=
  if encryptedDSN = [] then ([], none)
  else if !HasPrefix encryptedDSN encryptedPrefix then (encryptedDSN, none)
  else
    let encryptedPart := TrimPrefix encryptedDSN encryptedPrefix
    match scm.decrypt A encryptedPart with
    | (_, some err) => ([], some (.wrap "解密数据库配置失败" err))
    | (decrypted, none) => (decrypted, none)

/-- `SecureConfigManager.GetSecureDatabaseConfig`: the DSN of the result. -/
def SecureConfigManager.GetSecureDatabaseConfig (A : AEAD) (scm : SecureConfigManager) :
    Bytes × Option Error :=
  let config := scm.baseManager.DSN
  match scm.DecryptDatabaseConfig A config with
  | (_, some err) => ([], some err)
  | (decryptedDSN, none) => (decryptedDSN, none)

/-- The warning of `ValidateSecureConfig` for the default key. -/
def defaultKeyWarning : Log := .warn "使用默认加密密钥，请在生产环境中配置 CONFIG_ENCRYPTION_KEY"

/-- The test of `ValidateSecureConfig` that guards the default-key warning:
`string(scm.encryptionKey) == "default-encryption-key-change-in-production"`. -/
def SecureConfigManager.usesDefaultKey (scm : SecureConfigManager) : Bool :=
  scm.encryptionKey == defaultKey

/-- `SecureConfigManager.ValidateSecureConfig`: the records logged and the error. -/
def SecureConfigManager.ValidateSecureConfig (A : AEAD) (scm : SecureConfigManager) :
    List Log × Option Error :=
  match scm.baseManager.validate with
  | some err => ([], some err)
  | none =>
    let logs := if scm.usesDefaultKey then [defaultKeyWarning] else []
    match scm.GetSecureDatabaseConfig A with
    | (_, some err) => (logs, some (.wrap "验证数据库配置失败" err))
    | (dsn, none) =>
      if dsn = [] then (logs, some .emptyDSN) else (logs, none)

/-- A reference AEAD for running the model: the sealed text is key, nonce and
plaintext in a row, and `Open` accepts exactly what was sealed under the same
key and nonce. -/
def refAEAD : AEAD where
  Seal key nonce p := (key ++ nonce) ++ p
  Open key nonce c :=
    if c.take (key ++ nonce).length = key ++ nonce then some (c.drop (key ++ nonce).length) else none
  open_seal := by
    intro key nonce p
    have h1 : ((key ++ nonce) ++ p).take (key ++ nonce).length = key ++ nonce := List.take_left _ _
    have h2 : ((key ++ nonce) ++ p).drop (key ++ nonce).length = p := List.drop_left _ _
    simp only [h1, h2, if_true]

/-! ## `internal/config/sync.go` -/

/-- A value of Go type `interface{}` as `encoding/json` decodes it: `nil`,
`bool`, `float64` (a finite one, given by its rational value), `string`,
`[]interface{}` or `map[string]interface{}`. -/
inductive Value where
  | null
  | bool (b : Bool)
  | number (x : ℚ)
  | string (s : Bytes)
  | array (l : List Value)
  | object (l : List (Bytes × Value))

/-- A `map[string]interface{}`, listed in the order in which `range` visits it
(keys are distinct; the order is any). -/
abbrev Updates := List (Bytes × Value)

/-- The fields of `types.SystemSettings` that the package reads. -/
structure SystemSettings where
  AppUrl : Bytes
  RequestLogRetentionDays : Int
  RequestLogWriteIntervalMinutes : Int
  RequestTimeout : Int
  ConnectTimeout : Int
  MaxRetries : Int
  BlacklistThreshold : Int
  deriving DecidableEq, Repr

/-- `ConfigUpdate`, the message published on a change; times in Unix seconds. -/
structure ConfigUpdate where
  Timestamp : Int
  InstanceID : Bytes
  Changes : Updates
  Version : Int

/-- The state of a `sync.RWMutex`: held by a writer, or by a number of readers. -/
structure RWMutex where
  writer : Bool
  readers : Nat
  deriving DecidableEq, Repr

/-- The mutex nobody holds. -/
def RWMutex.free : RWMutex := { writer := false, readers := 0 }

/-- `Lock()`: granted when nobody holds the mutex, otherwise the caller waits (`none`). -/
def RWMutex.Lock (m : RWMutex) : Option RWMutex :=
  if m.writer = false ∧ m.readers = 0 then some { m with writer := true } else none

/-- `Unlock()`. -/
def RWMutex.Unlock (m : RWMutex) : RWMutex := { m with writer := false }

/-- `RLock()`: granted when no writer holds the mutex, otherwise the caller waits (`none`). -/
def RWMutex.RLock (m : RWMutex) : Option RWMutex :=
  if m.writer = false then some { m with readers := m.readers + 1 } else none

/-- `RUnlock()`. -/
def RWMutex.RUnlock (m : RWMutex) : RWMutex := { m with readers := m.readers - 1 }

/-- A registered callback, known by a number. -/
abbrev Callback := Nat

/-- `ConfigSync`: `syncer` is the snapshot that `cs.syncer.Get()` serves. -/
structure ConfigSync where
  syncer : SystemSettings
  mu : RWMutex
  callbacks : List Callback
  deriving DecidableEq, Repr

/-- What a call leaves behind outside the `ConfigSync`: the messages handed to
`store.Publish` with success (channel, message) and the goroutines started
(`go callback(settings)`). -/
structure Trace where
  published : List (Bytes × ConfigUpdate)
  started : List (Callback × SystemSettings)

/-- The empty trace. -/
def Trace.empty : Trace := { published := [], started := [] }

/-- The surroundings of a call: `json.Marshal` of a map and of a message
(`none` is an error), `store.Publish` (`none` is success) and the clock. -/
structure Env where
  marshal : Updates → Option Bytes
  marshalUpdate : ConfigUpdate → Option Bytes
  publish : Bytes → Bytes → Option Error
  now : Int

/-- How a call ends: it returns its error value, or it waits for `cs.mu` and
nothing can release it. -/
inductive Outcome where
  | returned (err : Option Error)
  | blocked
  deriving DecidableEq, Repr

/-- `ConfigSync.GetSettings`. -/
def ConfigSync.GetSettings (cs : ConfigSync) : SystemSettings := cs.syncer

/-- `applyUpdates`: serialises the map and logs it; `settings` is a copy and is
not written. -/
def applyUpdates (env : Env) (_settings : SystemSettings) (updates : Updates) : Option Error :=
  match env.marshal updates with
  | none => some (.wrap "序列化更新数据失败" .marshal)
  | some _ => none

/-- `ConfigSync.triggerCallbacks`: `none` when `RLock()` is not granted. -/
def ConfigSync.triggerCallbacks (cs : ConfigSync) (tr : Trace) (settings : SystemSettings) :
    Option (ConfigSync × Trace) :=
  match cs.mu.RLock with
  | none => none
  | some mu =>
    let tr1 := { tr with started := tr.started ++ cs.callbacks.map (fun cb => (cb, settings)) }
    -- defer cs.mu.RUnlock()
    some ({ cs with mu := mu.RUnlock }, tr1)

/-- The message `UpdateSettings` builds: `ConfigUpdate{Timestamp: time.Now(),
InstanceID: "master", Changes: updates, Version: time.Now().Unix()}`. -/
def newConfigUpdate (env : Env) (updates : Updates) : ConfigUpdate :=
  { Timestamp := env.now, InstanceID := gs "master", Changes := updates, Version := env.now }

/-- `ConfigSync.UpdateSettings`. -/
def ConfigSync.UpdateSettings (env : Env) (cs : ConfigSync) (tr : Trace) (updates : Updates) :
    ConfigSync × Trace × Outcome :=
  match cs.mu.Lock with
  | none => (cs, tr, .blocked)
  | some mu =>
    let cs1 := { cs with mu := mu }
    -- defer cs.mu.Unlock(): runs at each return
    let currentSettings := cs1.GetSettings
    match applyUpdates env currentSettings updates with
    | some err => ({ cs1 with mu := cs1.mu.Unlock }, tr, .returned (some (.wrap "应用配置更新失败" err)))
    | none =>
      let update := newConfigUpdate env updates
      match env.marshalUpdate update with
      | none =>
        ({ cs1 with mu := cs1.mu.Unlock }, tr, .returned (some (.wrap "序列化配置更新失败" .marshal)))
      | some updateData =>
        match env.publish (gs "config_updates") updateData with
        | some err =>
          ({ cs1 with mu := cs1.mu.Unlock }, tr, .returned (some (.wrap "发布配置更新失败" err)))
        | none =>
          let tr1 := { tr with published := tr.published ++ [(gs "config_updates", update)] }
          match cs1.triggerCallbacks tr1 currentSettings with
          | none => (cs1, tr1, .blocked)
          | some (cs2, tr2) => ({ cs2 with mu := cs2.mu.Unlock }, tr2, .returned none)

/-- `ConfigSync.AddCallback`: `none` when `Lock()` is not granted. -/
def ConfigSync.AddCallback (cs : ConfigSync) (callback : Callback) : Option ConfigSync :=
  match cs.mu.Lock with
  | none => none
  | some mu => some { cs with mu := mu.Unlock, callbacks := cs.callbacks ++ [callback] }

/-- `SecureConfigManager.UpdateDatabaseConfig`; `configSync` is `scm.configSync`, `none` for nil. -/
def SecureConfigManager.UpdateDatabaseConfig (A : AEAD) (env : Env) (scm : SecureConfigManager)
    (rnd : Bytes) (configSync : Option ConfigSync) (tr : Trace) (newDSN : Bytes) :
    Option ConfigSync × Trace × Outcome :=
  match scm.EncryptDatabaseConfig A rnd newDSN with
  | (_, some err) => (configSync, tr, .returned (some (.wrap "加密数据库配置失败" err)))
  | (encryptedDSN, none) =>
    let updates : Updates := [(gs "database_dsn", .string encryptedDSN)]
    match configSync with
    | none => (none, tr, .returned none)
    | some cs =>
      match cs.UpdateSettings env tr updates with
      | (cs1, tr1, .blocked) => (some cs1, tr1, .blocked)
      | (cs1, tr1, .returned (some err)) =>
        (some cs1, tr1, .returned (some (.wrap "同步配置更新失败" err)))
      | (cs1, tr1, .returned none) => (some cs1, tr1, .returned none)

/-! ## `internal/handler/config_sync_handler.go` -/

/-- The keys of the second case of the `switch` in `validateUpdates`. -/
def numericKeys : List Bytes :=
  [gs "request_timeout", gs "connect_timeout", gs "max_retries", gs "blacklist_threshold"]

/-- The body of the loop of `validateUpdates` for one entry: the error it returns, if any. -/
def validateEntry (key : Bytes) (value : Value) : Option Error :=
  if key = gs "app_url" then
    match value with
    | .string str => if str = [] then some (.validation (gs "app_url 必须是非空字符串")) else none
    | _ => some (.validation (gs "app_url 必须是非空字符串"))
  else if key ∈ numericKeys then
    match value with
    | .number num => if num < 0 then some (.validation (key ++ gs " 必须是非负数")) else none
    | _ => some (.validation (key ++ gs " 必须是非负数"))
  else if key = gs "proxy_keys" then
    match value with
    | .string _ => none
    | _ => some (.validation (gs "proxy_keys 必须是字符串"))
  else
    -- default: a warning is logged
    none

/-- `ConfigSyncHandler.validateUpdates`: the first error met in iteration order. -/
def validateUpdates : Updates → Option Error
  | [] => none
  | (key, value) :: rest =>
    match validateEntry key value with
    | some err => some err
    | none => validateUpdates rest

/-- `ConfigSyncHandler.UpdateConfig`. `configSync` is `h.configSync` (`none` for
nil), `body` the map bound by `ShouldBindJSON` (`none` for a binding error).
The result carries the HTTP status written, `none` when the handler never
gets to answer. -/
def UpdateConfig (env : Env) (configSync : Option ConfigSync) (tr : Trace)
    (body : Option Updates) : Option ConfigSync × Trace × Option Nat :=
  match configSync with
  | none => (none, tr, some 503)
  | some cs =>
    match body with
    | none => (some cs, tr, some 400)
    | some updates =>
      match validateUpdates updates with
      | some _ => (some cs, tr, some 400)
      | none =>
        match cs.UpdateSettings env tr updates with
        | (cs1, tr1, .blocked) => (some cs1, tr1, none)
        | (cs1, tr1, .returned (some _)) => (some cs1, tr1, some 500)
        | (cs1, tr1, .returned none) => (some cs1, tr1, some 200)

/-- The value a map carries under a key. -/
def lookup (key : Bytes) : Updates → Option Value
  | [] => none
  | (k, v) :: rest => if k = key then some v else lookup key rest

/-- The strings a trace published under the key `database_dsn`. -/
def Trace.publishedDSN (tr : Trace) : List Bytes :=
  tr.published.filterMap (fun m =>
    match lookup (gs "database_dsn") m.2.Changes with
    | some (.string s) => some s
    | _ => none)

/-! ## The validity of an entry, in the words of the specification -/

/-- A non-empty string. -/
def isNonEmptyString : Value → Bool
  | .string s => s != []
  | _ => false

/-- A number that is not negative. -/
def isNonNegNumber : Value → Bool
  | .number x => decide (0 ≤ x)
  | _ => false

/-- A string. -/
def isString : Value → Bool
  | .string _ => true
  | _ => false

/-- The keys `validateUpdates` knows. -/
def recognised (key : Bytes) : Bool :=
  key == gs "app_url" || key == gs "request_timeout" || key == gs "connect_timeout"
    || key == gs "max_retries" || key == gs "blacklist_threshold" || key == gs "proxy_keys"

/-- A recognised key carries an invalid value: `app_url` not a non-empty
string; `request_timeout`, `connect_timeout`, `max_retries` or
`blacklist_threshold` not a number or negative; `proxy_keys` not a string. -/
def invalidValue (key : Bytes) (value : Value) : Bool :=
  (key == gs "app_url" && !isNonEmptyString value)
    || ((key == gs "request_timeout" || key == gs "connect_timeout" || key == gs "max_retries"
          || key == gs "blacklist_threshold") && !isNonNegNumber value)
    || (key == gs "proxy_keys" && !isString value)

/-! ## Concrete inputs -/

/-- A base manager that validates and stores a plaintext DSN. -/
def exManager : Manager := { validate := none, DSN := gs "postgres://u:p@host/db" }

/-- The manager built when `CONFIG_ENCRYPTION_KEY` is not set. -/
def exScm : SecureConfigManager := (NewSecureConfigManager exManager []).1

/-- Twelve bytes from the random source. -/
def exRnd : Bytes := [1, 2, 3, 4, 5, 6, 7, 8, 9, 10, 11, 12]

/-- Surroundings in which serialisation and publishing succeed. -/
def exEnv : Env :=
  { marshal := fun _ => some [], marshalUpdate := fun _ => some [], publish := fun _ _ => none,
    now := 1700000000 }

/-- Surroundings in which the store refuses to publish. -/
def exEnvDown : Env :=
  { marshal := fun _ => some [], marshalUpdate := fun _ => some [],
    publish := fun _ _ => some .publish, now := 1700000000 }

/-- A snapshot with a request timeout of 600. -/
def exSettings : SystemSettings :=
  { AppUrl := gs "http://localhost:3001", RequestLogRetentionDays := 7,
    RequestLogWriteIntervalMinutes := 1, RequestTimeout := 600, ConnectTimeout := 15,
    MaxRetries := 3, BlacklistThreshold := 3 }

/-- A `ConfigSync` at rest with two callbacks registered. -/
def exCs : ConfigSync := { syncer := exSettings, mu := RWMutex.free, callbacks := [1, 2] }

/-- The delta `{"request_timeout": 30}`. -/
def exUpdates : Updates := [(gs "request_timeout", .number 30)]

/-- The delta `{"database_dsn": "postgres://u:p@host/db"}`. -/
def exDsnUpdates : Updates := [(gs "database_dsn", .string (gs "postgres://u:p@host/db"))]

/-- A delta with one valid recognised field and one unrecognised key. -/
def exMixedUpdates : Updates :=
  [(gs "request_timeout", .number 30), (gs "no_such_setting", .bool true)]

end GptLoad

namespace GptLoad

/-! ## Key normalisation -/

theorem normalizeKey_length (key : Bytes) : (normalizeKey key).length = 32 := by
  unfold normalizeKey
  split_ifs with h1 h2
  · simp only [List.length_append, List.length_replicate]; omega
  · simp only [List.length_take]; omega
  · omega

/-- C7: the key stored by `NewSecureConfigManager` has exactly 32 bytes; a source
key (the environment value, or the fallback key when that is empty) of n < 32
bytes is stored followed by 32 - n zero bytes, one of more than 32 bytes is cut
to its first 32 bytes, one of 32 bytes is stored unchanged. -/
theorem key_normalisation (baseManager : Manager) (envKey : Bytes) :
    (NewSecureConfigManager baseManager envKey).1.encryptionKey.length = 32
    ∧ ((sourceKey envKey).length < 32 →
        (NewSecureConfigManager baseManager envKey).1.encryptionKey
          = sourceKey envKey ++ List.replicate (32 - (sourceKey envKey).length) (0 : UInt8))
    ∧ ((sourceKey envKey).length > 32 →
        (NewSecureConfigManager baseManager envKey).1.encryptionKey = (sourceKey envKey).take 32)
    ∧ ((sourceKey envKey).length = 32 →
        (NewSecureConfigManager baseManager envKey).1.encryptionKey = sourceKey envKey) := by
  refine ⟨normalizeKey_length _, ?_, ?_, ?_⟩
  · intro h
    simp only [NewSecureConfigManager, normalizeKey, if_pos h]
  · intro h
    have h1 : ¬ (sourceKey envKey).length < 32 := by omega
    simp only [NewSecureConfigManager, normalizeKey, if_neg h1, if_pos h]
  · intro h
    have h1 : ¬ (sourceKey envKey).length < 32 := by omega
    have h2 : ¬ (sourceKey envKey).length > 32 := by omega
    simp only [NewSecureConfigManager, normalizeKey, if_neg h1, if_neg h2]

/-- The three cases of C7 at the keys `"short"`, the empty value (the 43-byte
fallback) and a key of 32 bytes. -/
theorem key_normalisation_witness :
    ((sourceKey (gs "short")).length < 32
      ∧ (NewSecureConfigManager exManager (gs "short")).1.encryptionKey
          = gs "short" ++ List.replicate 27 (0 : UInt8))
    ∧ ((sourceKey []).length > 32
      ∧ (NewSecureConfigManager exManager []).1.encryptionKey
          = gs "default-encryption-key-change-in")
    ∧ ((sourceKey (gs "0123456789abcdef0123456789abcdef")).length = 32
      ∧ (NewSecureConfigManager exManager (gs "0123456789abcdef0123456789abcdef")).1.encryptionKey
          = gs "0123456789abcdef0123456789abcdef") :=
  ⟨⟨by decide, (key_normalisation exManager (gs "short")).2.1 (by decide)⟩,
   ⟨by decide, ((key_normalisation exManager []).2.2.1 (by decide)).trans (by decide)⟩,
   ⟨by decide, (key_normalisation exManager (gs "0123456789abcdef0123456789abcdef")).2.2.2
      (by decide)⟩⟩

/-! ## The default-key check -/

/-- C3: the default-key branch of `ValidateSecureConfig` is never taken, whatever
`CONFIG_ENCRYPTION_KEY` holds and in particular when it is empty: the stored key
has 32 bytes and the constant it is compared with has 43, so the warning is
never logged. -/
theorem default_key_never_detected (A : AEAD) (baseManager : Manager) (envKey : Bytes) :
    (NewSecureConfigManager baseManager envKey).1.usesDefaultKey = false
    ∧ (NewSecureConfigManager baseManager []).1.encryptionKey = defaultKey.take 32
    ∧ defaultKeyWarning ∉ ((NewSecureConfigManager baseManager envKey).1.ValidateSecureConfig A).1 := by
  have hlen : (NewSecureConfigManager baseManager envKey).1.encryptionKey.length = 32 :=
    normalizeKey_length _
  have hne : (NewSecureConfigManager baseManager envKey).1.usesDefaultKey = false := by
    unfold SecureConfigManager.usesDefaultKey
    rw [beq_eq_false_iff_ne]
    intro h
    rw [h] at hlen
    revert hlen
    decide
  have hfb : (NewSecureConfigManager baseManager []).1.encryptionKey = defaultKey.take 32 := by
    show normalizeKey (sourceKey []) = defaultKey.take 32
    decide
  refine ⟨hne, hfb, ?_⟩
  unfold SecureConfigManager.ValidateSecureConfig
  rw [hne]
  simp only [Bool.false_eq_true, if_false]
  split
  · simp
  · split
    · simp
    · split <;> simp
end GptLoad

namespace GptLoad

/-! ## Encryption and decryption of the DSN -/

theorem HasPrefix_append (pre s : Bytes) : HasPrefix (pre ++ s) pre = true := by
  unfold HasPrefix
  rw [List.take_left]
  exact beq_self_eq_true pre

theorem encryptedPrefix_append_ne_nil (s : Bytes) : encryptedPrefix ++ s ≠ [] := by
  intro h
  have h1 := congrArg List.length h
  rw [List.length_append] at h1
  have h2 : encryptedPrefix.length = 10 := by decide
  simp only [List.length_nil] at h1
  omega

theorem HasPrefix_ne_nil (s : Bytes) (h : HasPrefix s encryptedPrefix = true) : s ≠ [] := by
  intro hs
  subst hs
  revert h
  decide

/-- The result of `EncryptDatabaseConfig` when it reports no error: empty, the
input itself, or the prefix followed by the encoded ciphertext. -/
theorem encrypt_result (A : AEAD) (scm : SecureConfigManager) (rnd s e : Bytes)
    (h : scm.EncryptDatabaseConfig A rnd s = (e, none)) :
    (s = [] ∧ e = []) ∨ (HasPrefix s encryptedPrefix = true ∧ e = s)
    ∨ (s ≠ [] ∧ HasPrefix s encryptedPrefix = false
        ∧ ∃ enc, scm.encrypt A rnd s = (enc, none) ∧ e = encryptedPrefix ++ enc) := by
  unfold SecureConfigManager.EncryptDatabaseConfig at h
  by_cases h1 : s = []
  · rw [if_pos h1] at h
    exact Or.inl ⟨h1, (Prod.mk.inj h).1.symm⟩
  · rw [if_neg h1] at h
    by_cases h2 : HasPrefix s encryptedPrefix = true
    · rw [if_pos h2] at h
      exact Or.inr (Or.inl ⟨h2, (Prod.mk.inj h).1.symm⟩)
    · rw [if_neg h2] at h
      refine Or.inr (Or.inr ⟨h1, by simpa using h2, ?_⟩)
      rcases hr : scm.encrypt A rnd s with ⟨enc, err⟩
      rw [hr] at h
      cases err with
      | some err => simp at h
      | none => exact ⟨enc, rfl, (Prod.mk.inj h).1.symm⟩

/-- C8: `EncryptDatabaseConfig` is idempotent: a result `e` returned without
error is returned unchanged when encrypted again, whatever the random source
yields then; the empty string maps to the empty string and an input that begins
with `encrypted:` is returned unchanged. -/
theorem encrypt_idempotent (A : AEAD) (scm : SecureConfigManager) (rnd rnd2 s e : Bytes) :
    (scm.EncryptDatabaseConfig A rnd s = (e, none) →
        scm.EncryptDatabaseConfig A rnd2 e = (e, none))
    ∧ scm.EncryptDatabaseConfig A rnd [] = ([], none)
    ∧ (HasPrefix s encryptedPrefix = true → scm.EncryptDatabaseConfig A rnd s = (s, none)) := by
  have hpre : ∀ t : Bytes, HasPrefix t encryptedPrefix = true →
      scm.EncryptDatabaseConfig A rnd2 t = (t, none) := by
    intro t ht
    unfold SecureConfigManager.EncryptDatabaseConfig
    rw [if_neg (HasPrefix_ne_nil t ht), if_pos ht]
  have hnil : ∀ r : Bytes, scm.EncryptDatabaseConfig A r [] = ([], none) := by
    intro r
    unfold SecureConfigManager.EncryptDatabaseConfig
    rw [if_pos rfl]
  refine ⟨?_, hnil rnd, ?_⟩
  · intro h
    rcases encrypt_result A scm rnd s e h with ⟨_, he⟩ | ⟨hp, he⟩ | ⟨_, _, enc, _, he⟩
    · rw [he]; exact hnil rnd2
    · rw [he]; exact hpre s hp
    · rw [he]; exact hpre _ (HasPrefix_append _ _)
  · intro ht
    unfold SecureConfigManager.EncryptDatabaseConfig
    rw [if_neg (HasPrefix_ne_nil s ht), if_pos ht]

/-- C8 at the DSN `postgres://u:p@host/db`: it is encrypted without error, and
encrypting the result again with another nonce gives the same result. -/
theorem encrypt_idempotent_witness :
    (exScm.EncryptDatabaseConfig refAEAD exRnd (gs "postgres://u:p@host/db")).2 = none
    ∧ exScm.EncryptDatabaseConfig refAEAD (List.replicate 12 9)
        (exScm.EncryptDatabaseConfig refAEAD exRnd (gs "postgres://u:p@host/db")).1
      = ((exScm.EncryptDatabaseConfig refAEAD exRnd (gs "postgres://u:p@host/db")).1, none)
    ∧ exScm.EncryptDatabaseConfig refAEAD exRnd (gs "encrypted:abc") = (gs "encrypted:abc", none) :=
  ⟨by decide,
   (encrypt_idempotent refAEAD exScm exRnd (List.replicate 12 9) (gs "postgres://u:p@host/db")
      (exScm.EncryptDatabaseConfig refAEAD exRnd (gs "postgres://u:p@host/db")).1).1 (by decide),
   (encrypt_idempotent refAEAD exScm exRnd exRnd (gs "encrypted:abc") []).2.2 (by decide)⟩

/-- C6: `DecryptDatabaseConfig` fails closed. For a value that begins with
`encrypted:`, when the rest is not valid base64, or decodes to fewer than 12
bytes, or does not authenticate under the manager's key, the result is the
empty string together with an error. -/
theorem decrypt_fails_closed (A : AEAD) (scm : SecureConfigManager) (v : Bytes)
    (hp : HasPrefix v encryptedPrefix = true)
    (hbad : DecodeString (v.drop encryptedPrefix.length) = none
      ∨ ∃ data, DecodeString (v.drop encryptedPrefix.length) = some data
          ∧ (data.length < NonceSize
            ∨ A.Open scm.encryptionKey (data.take NonceSize) (data.drop NonceSize) = none)) :
    ∃ err, scm.DecryptDatabaseConfig A v = ([], some err) := by
  have hd : ∃ err, scm.decrypt A (v.drop encryptedPrefix.length) = ([], some err) := by
    unfold SecureConfigManager.decrypt
    rcases hbad with h | ⟨data, h, h2⟩
    · rw [h]; exact ⟨_, rfl⟩
    · rw [h]
      cases NewCipher scm.encryptionKey with
      | error e => exact ⟨_, rfl⟩
      | ok u =>
        by_cases hl : data.length < NonceSize
        · simp only [if_pos hl]; exact ⟨_, rfl⟩
        · simp only [if_neg hl]
          rcases h2 with h2 | h2
          · exact absurd h2 hl
          · rw [h2]; exact ⟨_, rfl⟩
  rcases hd with ⟨err, hd⟩
  unfold SecureConfigManager.DecryptDatabaseConfig
  rw [if_neg (HasPrefix_ne_nil v hp)]
  simp only [hp, Bool.not_true, Bool.false_eq_true, if_false, TrimPrefix, if_true, hd]
  exact ⟨_, rfl⟩

/-- C6 at three values: `encrypted:!!!` (not base64), `encrypted:AAAA` (three
bytes) and a ciphertext made under another key. -/
theorem decrypt_fails_closed_witness :
    (∃ err, exScm.DecryptDatabaseConfig refAEAD (gs "encrypted:!!!") = ([], some err))
    ∧ (∃ err, exScm.DecryptDatabaseConfig refAEAD (gs "encrypted:AAAA") = ([], some err))
    ∧ (∃ err, exScm.DecryptDatabaseConfig refAEAD
        ((NewSecureConfigManager exManager (gs "another key")).1.EncryptDatabaseConfig refAEAD exRnd
          (gs "postgres://u:p@host/db")).1 = ([], some err)) :=
  ⟨decrypt_fails_closed refAEAD exScm (gs "encrypted:!!!") (by decide) (Or.inl (by decide)),
   decrypt_fails_closed refAEAD exScm (gs "encrypted:AAAA") (by decide)
     (Or.inr ⟨[0, 0, 0], by decide, Or.inl (by decide)⟩),
   decrypt_fails_closed refAEAD exScm _ (by decide)
     (Or.inr ⟨exRnd ++ refAEAD.Seal (NewSecureConfigManager exManager (gs "another key")).1.encryptionKey
        exRnd (gs "postgres://u:p@host/db"), by decide, Or.inr (by decide)⟩)⟩

end GptLoad

namespace GptLoad

/-! ## Base64: decoding undoes encoding -/

theorem decodeMap_encChar_fin : ∀ i : Fin 64, decodeMap (encChar i.val) = some i.val := by decide

theorem encChar_props_fin : ∀ i : Fin 64,
    encChar i.val ≠ padChar ∧ (encChar i.val != 10 && encChar i.val != 13) = true := by decide

theorem decodeMap_encChar (i : Nat) (h : i < 64) : decodeMap (encChar i) = some i :=
  decodeMap_encChar_fin ⟨i, h⟩

theorem encChar_ne_pad (i : Nat) (h : i < 64) : encChar i ≠ padChar :=
  (encChar_props_fin ⟨i, h⟩).1

theorem encChar_keep (i : Nat) (h : i < 64) : (encChar i != 10 && encChar i != 13) = true :=
  (encChar_props_fin ⟨i, h⟩).2

theorem ofNat_toNat (a : UInt8) (n : Nat) (h : n = a.toNat) : UInt8.ofNat n = a := by
  subst h
  cases a with
  | mk v =>
    apply congrArg UInt8.mk
    show BitVec.ofNat 8 v.toNat = v
    simp

theorem toNat_lt (a : UInt8) : a.toNat < 256 := UInt8.toNat_lt a

theorem toNat_zero : (0 : UInt8).toNat = 0 := rfl

/-- The output of `EncodeToString` has no `\r` and no `\n`. -/
theorem filter_EncodeToString (bs : Bytes) :
    (EncodeToString bs).filter (fun c => c != 10 && c != 13) = EncodeToString bs := by
  rw [List.filter_eq_self]
  induction bs using EncodeToString.induct with
  | case1 => intro c hc; simp [EncodeToString] at hc
  | case2 a =>
    intro c hc
    simp only [EncodeToString, List.mem_cons, List.mem_nil_iff, or_false] at hc
    rcases hc with h | h | h | h <;> subst h
    · exact encChar_keep _ (Nat.mod_lt _ (by norm_num))
    · exact encChar_keep _ (Nat.mod_lt _ (by norm_num))
    · decide
    · decide
  | case3 a b =>
    intro c hc
    simp only [EncodeToString, List.mem_cons, List.mem_nil_iff, or_false] at hc
    rcases hc with h | h | h | h <;> subst h
    · exact encChar_keep _ (Nat.mod_lt _ (by norm_num))
    · exact encChar_keep _ (Nat.mod_lt _ (by norm_num))
    · exact encChar_keep _ (Nat.mod_lt _ (by norm_num))
    · decide
  | case4 a b c rest ih =>
    intro x hx
    simp only [EncodeToString, List.mem_cons] at hx
    rcases hx with h | h | h | h | h
    · subst h; exact encChar_keep _ (Nat.mod_lt _ (by norm_num))
    · subst h; exact encChar_keep _ (Nat.mod_lt _ (by norm_num))
    · subst h; exact encChar_keep _ (Nat.mod_lt _ (by norm_num))
    · subst h; exact encChar_keep _ (Nat.mod_lt _ (by norm_num))
    · exact ih x h

end GptLoad

namespace GptLoad

theorem decodeQuanta_cons (d0 d1 d2 d3 : Nat) (h0 : d0 < 64) (h1 : d1 < 64) (h2 : d2 < 64)
    (h3 : d3 < 64) (x : UInt8) (xs out : Bytes) (h : decodeQuanta (x :: xs) = some out) :
    decodeQuanta (encChar d0 :: encChar d1 :: encChar d2 :: encChar d3 :: x :: xs)
      = some (UInt8.ofNat (quantum d0 d1 d2 d3 / 65536 % 256)
          :: UInt8.ofNat (quantum d0 d1 d2 d3 / 256 % 256)
          :: UInt8.ofNat (quantum d0 d1 d2 d3 % 256) :: out) := by
  rw [decodeQuanta]
  · simp only [decodeMap_encChar _ h0, decodeMap_encChar _ h1, decodeMap_encChar _ h2,
      decodeMap_encChar _ h3, h]
  · intro h'; cases h'

theorem decodeQuanta_four (d0 d1 d2 d3 : Nat) (h0 : d0 < 64) (h1 : d1 < 64) (h2 : d2 < 64)
    (h3 : d3 < 64) :
    decodeQuanta [encChar d0, encChar d1, encChar d2, encChar d3]
      = some [UInt8.ofNat (quantum d0 d1 d2 d3 / 65536 % 256),
          UInt8.ofNat (quantum d0 d1 d2 d3 / 256 % 256),
          UInt8.ofNat (quantum d0 d1 d2 d3 % 256)] := by
  simp only [decodeQuanta, decodeMap_encChar _ h0, decodeMap_encChar _ h1,
    decodeMap_encChar _ h2, decodeMap_encChar _ h3, if_neg (encChar_ne_pad _ h2),
    if_neg (encChar_ne_pad _ h3)]

theorem decodeQuanta_three (d0 d1 d2 : Nat) (h0 : d0 < 64) (h1 : d1 < 64) (h2 : d2 < 64) :
    decodeQuanta [encChar d0, encChar d1, encChar d2, padChar]
      = some [UInt8.ofNat (quantum d0 d1 d2 0 / 65536 % 256),
          UInt8.ofNat (quantum d0 d1 d2 0 / 256 % 256)] := by
  simp only [decodeQuanta, decodeMap_encChar _ h0, decodeMap_encChar _ h1,
    decodeMap_encChar _ h2, if_neg (encChar_ne_pad _ h2), if_true]

theorem decodeQuanta_two (d0 d1 : Nat) (h0 : d0 < 64) (h1 : d1 < 64) :
    decodeQuanta [encChar d0, encChar d1, padChar, padChar]
      = some [UInt8.ofNat (quantum d0 d1 0 0 / 65536 % 256)] := by
  simp only [decodeQuanta, decodeMap_encChar _ h0, decodeMap_encChar _ h1, if_true]

end GptLoad

namespace GptLoad

theorem EncodeToString_eq_nil (bs : Bytes) (h : EncodeToString bs = []) : bs = [] := by
  match bs, h with
  | [], _ => rfl
  | [_], h => simp [EncodeToString] at h
  | [_, _], h => simp [EncodeToString] at h
  | _ :: _ :: _ :: _, h => simp [EncodeToString] at h

theorem decodeQuanta_EncodeToString (bs : Bytes) :
    decodeQuanta (EncodeToString bs) = some bs := by
  induction bs using EncodeToString.induct with
  | case1 => rfl
  | case2 a =>
    have ha := toNat_lt a
    simp only [EncodeToString]
    rw [decodeQuanta_two _ _ (Nat.mod_lt _ (by norm_num)) (Nat.mod_lt _ (by norm_num))]
    congr 2
    apply ofNat_toNat
    simp only [quantum, val24, toNat_zero]
    omega
  | case3 a b =>
    have ha := toNat_lt a
    have hb := toNat_lt b
    simp only [EncodeToString]
    rw [decodeQuanta_three _ _ _ (Nat.mod_lt _ (by norm_num)) (Nat.mod_lt _ (by norm_num))
      (Nat.mod_lt _ (by norm_num))]
    have e1 : UInt8.ofNat (quantum (val24 a b 0 / 262144 % 64) (val24 a b 0 / 4096 % 64)
        (val24 a b 0 / 64 % 64) 0 / 65536 % 256) = a := by
      apply ofNat_toNat
      simp only [quantum, val24, toNat_zero]
      omega
    have e2 : UInt8.ofNat (quantum (val24 a b 0 / 262144 % 64) (val24 a b 0 / 4096 % 64)
        (val24 a b 0 / 64 % 64) 0 / 256 % 256) = b := by
      apply ofNat_toNat
      simp only [quantum, val24, toNat_zero]
      omega
    rw [e1, e2]
  | case4 a b c rest ih =>
    have ha := toNat_lt a
    have hb := toNat_lt b
    have hc := toNat_lt c
    have e1 : UInt8.ofNat (quantum (val24 a b c / 262144 % 64) (val24 a b c / 4096 % 64)
        (val24 a b c / 64 % 64) (val24 a b c % 64) / 65536 % 256) = a := by
      apply ofNat_toNat
      simp only [quantum, val24]
      omega
    have e2 : UInt8.ofNat (quantum (val24 a b c / 262144 % 64) (val24 a b c / 4096 % 64)
        (val24 a b c / 64 % 64) (val24 a b c % 64) / 256 % 256) = b := by
      apply ofNat_toNat
      simp only [quantum, val24]
      omega
    have e3 : UInt8.ofNat (quantum (val24 a b c / 262144 % 64) (val24 a b c / 4096 % 64)
        (val24 a b c / 64 % 64) (val24 a b c % 64) % 256) = c := by
      apply ofNat_toNat
      simp only [quantum, val24]
      omega
    simp only [EncodeToString]
    rcases hE : EncodeToString rest with _ | ⟨x, xs⟩
    · have hr := EncodeToString_eq_nil rest hE
      subst hr
      rw [decodeQuanta_four _ _ _ _ (Nat.mod_lt _ (by norm_num)) (Nat.mod_lt _ (by norm_num))
        (Nat.mod_lt _ (by norm_num)) (Nat.mod_lt _ (by norm_num)), e1, e2, e3]
    · rw [hE] at ih
      rw [decodeQuanta_cons _ _ _ _ (Nat.mod_lt _ (by norm_num)) (Nat.mod_lt _ (by norm_num))
        (Nat.mod_lt _ (by norm_num)) (Nat.mod_lt _ (by norm_num)) x xs rest ih, e1, e2, e3]

/-- `DecodeString` undoes `EncodeToString`. -/
theorem DecodeString_EncodeToString (bs : Bytes) :
    DecodeString (EncodeToString bs) = some bs := by
  unfold DecodeString
  rw [filter_EncodeToString, decodeQuanta_EncodeToString]

end GptLoad

namespace GptLoad

/-! ## Round trip -/

/-- `decrypt` gives back what `encrypt` was given. -/
theorem decrypt_encrypt (A : AEAD) (scm : SecureConfigManager) (rnd s enc : Bytes)
    (h : scm.encrypt A rnd s = (enc, none)) : scm.decrypt A enc = (s, none) := by
  unfold SecureConfigManager.encrypt at h
  unfold SecureConfigManager.decrypt
  cases hc : NewCipher scm.encryptionKey with
  | error e => rw [hc] at h; simp at h
  | ok u =>
    rw [hc] at h
    simp only [ReadFull] at h
    by_cases hn : NonceSize ≤ rnd.length
    · rw [if_pos hn] at h
      have he : enc = EncodeToString
          (rnd.take NonceSize ++ A.Seal scm.encryptionKey (rnd.take NonceSize) s) :=
        (Prod.mk.inj h).1.symm
      have hlen : (rnd.take NonceSize).length = NonceSize := by
        rw [List.length_take]; omega
      have ht : (rnd.take NonceSize ++ A.Seal scm.encryptionKey (rnd.take NonceSize) s).take
          NonceSize = rnd.take NonceSize := by
        exact List.take_left' hlen
      have hd : (rnd.take NonceSize ++ A.Seal scm.encryptionKey (rnd.take NonceSize) s).drop
          NonceSize = A.Seal scm.encryptionKey (rnd.take NonceSize) s := by
        exact List.drop_left' hlen
      have hl : ¬ (rnd.take NonceSize ++ A.Seal scm.encryptionKey (rnd.take NonceSize) s).length
          < NonceSize := by
        rw [List.length_append, hlen]; omega
      rw [he, DecodeString_EncodeToString]
      simp only [if_neg hl, ht, hd, A.open_seal]
    · rw [if_neg hn] at h
      simp at h

/-- C1, amended: for every string `s` that does not begin with `encrypted:`
(the empty string included), every key and every random source, if
`EncryptDatabaseConfig(s)` returns `e` with no error then
`DecryptDatabaseConfig(e)` returns exactly `s` with no error. -/
theorem roundtrip_unprefixed (A : AEAD) (scm : SecureConfigManager) (rnd s e : Bytes)
    (hp : HasPrefix s encryptedPrefix = false)
    (h : scm.EncryptDatabaseConfig A rnd s = (e, none)) :
    scm.DecryptDatabaseConfig A e = (s, none) := by
  rcases encrypt_result A scm rnd s e h with ⟨hs, he⟩ | ⟨hp2, _⟩ | ⟨_, _, enc, henc, he⟩
  · rw [he, hs]
    unfold SecureConfigManager.DecryptDatabaseConfig
    rw [if_pos rfl]
  · rw [hp] at hp2; cases hp2
  · have hd := decrypt_encrypt A scm rnd s enc henc
    have hdrop : (encryptedPrefix ++ enc).drop encryptedPrefix.length = enc := List.drop_left _ _
    rw [he]
    unfold SecureConfigManager.DecryptDatabaseConfig
    rw [if_neg (encryptedPrefix_append_ne_nil enc)]
    simp only [HasPrefix_append, Bool.not_true, Bool.false_eq_true, if_false, TrimPrefix,
      if_true, hdrop, hd]

/-- The amended C1 at the DSN `postgres://u:p@host/db` under the key built from
the fallback. -/
theorem roundtrip_unprefixed_witness :
    HasPrefix (gs "postgres://u:p@host/db") encryptedPrefix = false
    ∧ (exScm.EncryptDatabaseConfig refAEAD exRnd (gs "postgres://u:p@host/db")).2 = none
    ∧ exScm.DecryptDatabaseConfig refAEAD
        (exScm.EncryptDatabaseConfig refAEAD exRnd (gs "postgres://u:p@host/db")).1
      = (gs "postgres://u:p@host/db", none) :=
  ⟨by decide, by decide,
   roundtrip_unprefixed refAEAD exScm exRnd (gs "postgres://u:p@host/db") _ (by decide)
     (by decide)⟩

/-- C1 as stated fails at `s = "encrypted:"` under a 32-byte key:
`EncryptDatabaseConfig` returns `s` itself with no error, and
`DecryptDatabaseConfig` of that result returns the empty string and the error
`ciphertext too short`. Neither call reaches the cipher. -/
theorem roundtrip_fails_on_prefixed :
    exScm.encryptionKey.length = 32
    ∧ exScm.EncryptDatabaseConfig refAEAD exRnd (gs "encrypted:") = (gs "encrypted:", none)
    ∧ exScm.DecryptDatabaseConfig refAEAD (gs "encrypted:")
        = ([], some (.wrap "解密数据库配置失败" .ciphertextTooShort))
    ∧ exScm.DecryptDatabaseConfig refAEAD (gs "encrypted:") ≠ (gs "encrypted:", none) := by
  decide

end GptLoad

namespace GptLoad

/-! ## `UpdateSettings` -/

theorem Lock_free : RWMutex.free.Lock = some { writer := true, readers := 0 } := rfl

/-- No path through `UpdateSettings` writes the snapshot that `GetSettings`
serves: whatever the state, the delta, the surroundings and the outcome of the
call, `GetSettings` afterwards returns what it returned before. -/
theorem update_leaves_snapshot (env : Env) (cs : ConfigSync) (tr : Trace) (updates : Updates) :
    (cs.UpdateSettings env tr updates).1.GetSettings = cs.GetSettings := by
  unfold ConfigSync.UpdateSettings
  cases cs.mu.Lock with
  | none => rfl
  | some mu =>
    simp only []
    cases applyUpdates env (ConfigSync.GetSettings { cs with mu := mu }) updates with
    | some err => rfl
    | none =>
      simp only []
      cases env.marshalUpdate (newConfigUpdate env updates) with
      | none => rfl
      | some data =>
        simp only []
        cases env.publish (gs "config_updates") data with
        | some err => rfl
        | none =>
          simp only [ConfigSync.triggerCallbacks]
          cases mu.RLock with
          | none => rfl
          | some mu2 => rfl

/-- C2: the delta `{"request_timeout": 30}` is not applied. On a `ConfigSync` at
rest whose snapshot has a request timeout of 600, with serialisation and
publishing succeeding, `applyUpdates` reports success and the message goes out
on `config_updates`, yet `GetSettings` afterwards still serves a request
timeout of 600, not 30; and the call does not return nil, it ends waiting for
its own lock. -/
theorem update_not_applied :
    applyUpdates exEnv exCs.GetSettings exUpdates = none
    ∧ (exCs.UpdateSettings exEnv Trace.empty exUpdates).2.1.published.map (fun m => m.1)
        = [gs "config_updates"]
    ∧ (exCs.UpdateSettings exEnv Trace.empty exUpdates).1.GetSettings.RequestTimeout = 600
    ∧ (exCs.UpdateSettings exEnv Trace.empty exUpdates).1.GetSettings.RequestTimeout ≠ 30
    ∧ (exCs.UpdateSettings exEnv Trace.empty exUpdates).2.2 = .blocked := by
  decide

/-- C4: a call of `UpdateSettings` that starts with the lock free and whose
serialisations and `Publish` succeed does not complete: `triggerCallbacks` asks
for the read lock while the call itself holds `cs.mu` exclusively, so the call
waits for ever, still holding the lock, with the message published and no
callback started. -/
theorem update_blocks_on_own_lock (env : Env) (cs : ConfigSync) (tr : Trace)
    (updates : Updates) (data1 data2 : Bytes)
    (hfree : cs.mu = RWMutex.free)
    (hm : env.marshal updates = some data1)
    (hu : env.marshalUpdate (newConfigUpdate env updates) = some data2)
    (hpub : env.publish (gs "config_updates") data2 = none) :
    (cs.UpdateSettings env tr updates).2.2 = .blocked
    ∧ (cs.UpdateSettings env tr updates).1.mu = { writer := true, readers := 0 }
    ∧ (cs.UpdateSettings env tr updates).2.1.started = tr.started
    ∧ (cs.UpdateSettings env tr updates).2.1.published
        = tr.published ++ [(gs "config_updates", (newConfigUpdate env updates))] := by
  simp only [ConfigSync.UpdateSettings, ConfigSync.triggerCallbacks, applyUpdates, hfree,
    Lock_free, hm, hu, hpub, RWMutex.RLock]
  simp

/-- C4 at the delta `{"request_timeout": 30}` on a `ConfigSync` at rest: the call
ends blocked with the write lock held. -/
theorem update_blocks_on_own_lock_witness :
    exCs.mu = RWMutex.free
    ∧ (exCs.UpdateSettings exEnv Trace.empty exUpdates).2.2 = .blocked
    ∧ (exCs.UpdateSettings exEnv Trace.empty exUpdates).1.mu = { writer := true, readers := 0 } :=
  ⟨rfl, (update_blocks_on_own_lock exEnv exCs Trace.empty exUpdates [] [] rfl rfl rfl rfl).1,
    (update_blocks_on_own_lock exEnv exCs Trace.empty exUpdates [] [] rfl rfl rfl rfl).2.1⟩

/-- C10: a failed publication is atomic. When the call starts with the lock
free and a serialisation fails or `store.Publish` returns an error,
`UpdateSettings` returns a non-nil error, `GetSettings` serves the snapshot it
served before, the callback list is unchanged, no callback is started, nothing
is recorded as published, and the lock is free again. -/
theorem publish_failure_atomic (env : Env) (cs : ConfigSync) (tr : Trace) (updates : Updates)
    (hfree : cs.mu = RWMutex.free)
    (hfail : env.marshal updates = none
      ∨ ∀ data, env.marshalUpdate (newConfigUpdate env updates) = some data →
          env.publish (gs "config_updates") data ≠ none) :
    (∃ err, (cs.UpdateSettings env tr updates).2.2 = .returned (some err))
    ∧ (cs.UpdateSettings env tr updates).1.GetSettings = cs.GetSettings
    ∧ (cs.UpdateSettings env tr updates).1.callbacks = cs.callbacks
    ∧ (cs.UpdateSettings env tr updates).2.1.started = tr.started
    ∧ (cs.UpdateSettings env tr updates).2.1.published = tr.published
    ∧ (cs.UpdateSettings env tr updates).1.mu = RWMutex.free := by
  simp only [ConfigSync.UpdateSettings, applyUpdates, hfree, Lock_free]
  cases hm : env.marshal updates with
  | none => exact ⟨⟨_, rfl⟩, rfl, rfl, rfl, rfl, rfl⟩
  | some data1 =>
    have hfail2 := hfail.resolve_left (by rw [hm]; simp)
    simp only []
    cases hu : env.marshalUpdate (newConfigUpdate env updates) with
    | none => exact ⟨⟨_, rfl⟩, rfl, rfl, rfl, rfl, rfl⟩
    | some data2 =>
      simp only []
      cases hp : env.publish (gs "config_updates") data2 with
      | none => exact absurd hp (hfail2 data2 hu)
      | some err => exact ⟨⟨_, rfl⟩, rfl, rfl, rfl, rfl, rfl⟩

/-- C10 with a store that refuses to publish: the call returns the publish
error and the `ConfigSync`, callbacks included, is as before. -/
theorem publish_failure_atomic_witness :
    exCs.mu = RWMutex.free
    ∧ (exCs.UpdateSettings exEnvDown Trace.empty exUpdates).2.2
        = .returned (some (.wrap "发布配置更新失败" .publish))
    ∧ (exCs.UpdateSettings exEnvDown Trace.empty exUpdates).1 = exCs
    ∧ (exCs.UpdateSettings exEnvDown Trace.empty exUpdates).2.1.started = [] :=
  ⟨rfl, by decide, by decide,
    (publish_failure_atomic exEnvDown exCs Trace.empty exUpdates rfl
      (Or.inr (fun _ _ h => Option.noConfusion h))).2.2.2.1⟩

/-! ## The sensitive field on the wire -/

/-- C5: a DSN sent to the `UpdateConfig` handler under the key `database_dsn` is
accepted by `validateUpdates` and published as it came: the string published
under `database_dsn` is the plaintext `postgres://u:p@host/db`, which does not
begin with `encrypted:`. -/
theorem handler_publishes_plaintext_dsn :
    validateUpdates exDsnUpdates = none
    ∧ (UpdateConfig exEnv (some exCs) Trace.empty (some exDsnUpdates)).2.1.publishedDSN
        = [gs "postgres://u:p@host/db"]
    ∧ HasPrefix (gs "postgres://u:p@host/db") encryptedPrefix = false := by
  decide

end GptLoad

namespace GptLoad

/-! ## `validateUpdates` -/

theorem numericKeys_mem (key : Bytes) :
    (key == gs "request_timeout" || key == gs "connect_timeout" || key == gs "max_retries"
      || key == gs "blacklist_threshold") = decide (key ∈ numericKeys) := by
  rw [Bool.eq_iff_iff]
  simp [numericKeys, or_assoc]

theorem decide_nil_eq (s : Bytes) : decide (s = []) = !(s != []) := by
  by_cases h : s = []
  · subst h; rfl
  · have h2 : (s != []) = true := bne_iff_ne.mpr h
    rw [h2]
    simp [h]

theorem decide_neg_eq (x : ℚ) : decide (x < 0) = !decide (0 ≤ x) := by
  by_cases h : x < 0
  · simp [h]
  · simp [h, not_lt.mp h]

theorem isSome_ite (c : Prop) [Decidable c] (e : Error) :
    (if c then some e else none).isSome = decide c := by
  by_cases h : c <;> simp [h]

/-- The loop body rejects an entry exactly when a recognised key carries an
invalid value. -/
theorem validateEntry_isSome (key : Bytes) (value : Value) :
    (validateEntry key value).isSome = invalidValue key value := by
  have ha1 : gs "app_url" ∉ numericKeys := by decide
  have ha2 : (gs "app_url" == gs "proxy_keys") = false := by decide
  have hp1 : gs "proxy_keys" ∉ numericKeys := by decide
  have hp2 : (gs "proxy_keys" == gs "app_url") = false := by decide
  unfold validateEntry invalidValue
  rw [numericKeys_mem]
  by_cases h1 : key = gs "app_url"
  · subst h1
    rw [if_pos rfl]
    cases value <;>
      simp [isNonEmptyString, isNonNegNumber, isString, ha1, ha2, isSome_ite, decide_nil_eq]
  · rw [if_neg h1]
    have e1 : (key == gs "app_url") = false := beq_eq_false_iff_ne.mpr h1
    by_cases h2 : key ∈ numericKeys
    · have h3 : key ≠ gs "proxy_keys" := fun h => hp1 (h ▸ h2)
      have e3 : (key == gs "proxy_keys") = false := beq_eq_false_iff_ne.mpr h3
      rw [if_pos h2]
      cases value <;>
        simp [isNonEmptyString, isNonNegNumber, isString, e1, h2, e3, isSome_ite, decide_neg_eq]
    · rw [if_neg h2]
      by_cases h3 : key = gs "proxy_keys"
      · subst h3
        rw [if_pos rfl]
        cases value <;>
          simp [isNonEmptyString, isNonNegNumber, isString, hp1, hp2]
      · rw [if_neg h3]
        have e3 : (key == gs "proxy_keys") = false := beq_eq_false_iff_ne.mpr h3
        simp [e1, h2, e3]

theorem validateUpdates_isSome (updates : Updates) :
    (validateUpdates updates).isSome = updates.any (fun kv => invalidValue kv.1 kv.2) := by
  induction updates with
  | nil => rfl
  | cons kv rest ih =>
    obtain ⟨key, value⟩ := kv
    rw [validateUpdates, List.any_cons, ← validateEntry_isSome, ← ih]
    cases validateEntry key value <;> simp

theorem invalidValue_recognised (key : Bytes) (value : Value) (h : invalidValue key value = true) :
    recognised key = true := by
  unfold invalidValue at h
  unfold recognised
  simp only [Bool.or_eq_true, Bool.and_eq_true] at h ⊢
  rcases h with (⟨h, _⟩ | ⟨((h | h) | h) | h, _⟩) | ⟨h, _⟩ <;> simp [h]

/-- C9: `validateUpdates` returns an error if and only if some recognised key
carries an invalid value; the outcome (error or not) is the same for every order
of iteration over the map and is not changed by unrecognised keys. -/
theorem validate_rejects_iff_invalid (updates other : Updates) :
    ((validateUpdates updates).isSome = true
        ↔ ∃ kv ∈ updates, recognised kv.1 = true ∧ invalidValue kv.1 kv.2 = true)
    ∧ (updates.Perm other → (validateUpdates other).isSome = (validateUpdates updates).isSome)
    ∧ (validateUpdates (updates.filter (fun kv => recognised kv.1))).isSome
        = (validateUpdates updates).isSome := by
  refine ⟨?_, ?_, ?_⟩
  · rw [validateUpdates_isSome, List.any_eq_true]
    constructor
    · rintro ⟨kv, hm, hi⟩
      exact ⟨kv, hm, invalidValue_recognised _ _ hi, hi⟩
    · rintro ⟨kv, hm, _, hi⟩
      exact ⟨kv, hm, hi⟩
  · intro hperm
    rw [validateUpdates_isSome, validateUpdates_isSome, Bool.eq_iff_iff, List.any_eq_true,
      List.any_eq_true]
    constructor
    · rintro ⟨kv, hm, hi⟩
      exact ⟨kv, hperm.mem_iff.mpr hm, hi⟩
    · rintro ⟨kv, hm, hi⟩
      exact ⟨kv, hperm.mem_iff.mp hm, hi⟩
  · rw [validateUpdates_isSome, validateUpdates_isSome, Bool.eq_iff_iff, List.any_eq_true,
      List.any_eq_true]
    constructor
    · rintro ⟨kv, hm, hi⟩
      exact ⟨kv, (List.mem_filter.mp hm).1, hi⟩
    · rintro ⟨kv, hm, hi⟩
      exact ⟨kv, List.mem_filter.mpr ⟨hm, invalidValue_recognised _ _ hi⟩, hi⟩

/-- C9 at a map with one valid recognised field and one unrecognised key: it is
accepted in both orders of iteration; with a negative `request_timeout` next
to the unrecognised key it is rejected in both orders. -/
theorem validate_rejects_iff_invalid_witness :
    validateUpdates exMixedUpdates = none
    ∧ exMixedUpdates.Perm exMixedUpdates.reverse
    ∧ (validateUpdates exMixedUpdates.reverse).isSome = (validateUpdates exMixedUpdates).isSome
    ∧ (validateUpdates [(gs "no_such_setting", .bool true),
          (gs "request_timeout", .number (-1))]).isSome = true :=
  ⟨by decide, (List.reverse_perm _).symm,
   (validate_rejects_iff_invalid exMixedUpdates exMixedUpdates.reverse).2.1
     (List.reverse_perm _).symm,
   (validate_rejects_iff_invalid [(gs "no_such_setting", .bool true),
      (gs "request_timeout", .number (-1))] []).1.mpr
     ⟨(gs "request_timeout", .number (-1)), by simp, by decide, by decide⟩⟩

end GptLoad

namespace GptLoad

/-! ## The sensitive field through `UpdateDatabaseConfig` -/

/-- `UpdateSettings` publishes nothing or exactly the message built from its delta. -/
theorem UpdateSettings_published (env : Env) (cs : ConfigSync) (tr : Trace) (updates : Updates) :
    (cs.UpdateSettings env tr updates).2.1.published = tr.published
    ∨ (cs.UpdateSettings env tr updates).2.1.published
        = tr.published ++ [(gs "config_updates", newConfigUpdate env updates)] := by
  unfold ConfigSync.UpdateSettings
  cases cs.mu.Lock with
  | none => exact Or.inl rfl
  | some mu =>
    simp only []
    cases applyUpdates env (ConfigSync.GetSettings { cs with mu := mu }) updates with
    | some err => exact Or.inl rfl
    | none =>
      simp only []
      cases env.marshalUpdate (newConfigUpdate env updates) with
      | none => exact Or.inl rfl
      | some data =>
        simp only []
        cases env.publish (gs "config_updates") data with
        | some err => exact Or.inl rfl
        | none =>
          simp only [ConfigSync.triggerCallbacks]
          cases mu.RLock with
          | none => exact Or.inr rfl
          | some mu2 => exact Or.inr rfl

/-- The path through `SecureConfigManager.UpdateDatabaseConfig` keeps the
sensitive field encrypted: every string it adds to what is published under
`database_dsn` is empty or begins with `encrypted:`. -/
theorem UpdateDatabaseConfig_publishes_encrypted (A : AEAD) (env : Env)
    (scm : SecureConfigManager) (rnd : Bytes) (configSync : Option ConfigSync) (tr : Trace)
    (newDSN s : Bytes)
    (hs : s ∈ (scm.UpdateDatabaseConfig A env rnd configSync tr newDSN).2.1.publishedDSN) :
    s ∈ tr.publishedDSN ∨ s = [] ∨ HasPrefix s encryptedPrefix = true := by
  unfold SecureConfigManager.UpdateDatabaseConfig at hs
  rcases he : scm.EncryptDatabaseConfig A rnd newDSN with ⟨e, err⟩
  rw [he] at hs
  cases err with
  | some err => exact Or.inl hs
  | none =>
    simp only [] at hs
    cases configSync with
    | none => exact Or.inl hs
    | some cs =>
      simp only [] at hs
      have hpub := UpdateSettings_published env cs tr [(gs "database_dsn", Value.string e)]
      have hs2 : s ∈ (cs.UpdateSettings env tr
          [(gs "database_dsn", Value.string e)]).2.1.publishedDSN := by
        rcases hr : cs.UpdateSettings env tr [(gs "database_dsn", Value.string e)]
          with ⟨cs1, tr1, out⟩
        rw [hr] at hs
        cases out with
        | blocked => exact hs
        | returned r =>
          cases r with
          | none => exact hs
          | some err => exact hs
      rcases hpub with hpub | hpub
      · left
        unfold Trace.publishedDSN at hs2 ⊢
        rw [hpub] at hs2
        exact hs2
      · unfold Trace.publishedDSN at hs2
        rw [hpub, List.filterMap_append, List.mem_append] at hs2
        rcases hs2 with hs2 | hs2
        · exact Or.inl hs2
        · right
          have hl : lookup (gs "database_dsn") (newConfigUpdate env
              [(gs "database_dsn", Value.string e)]).Changes = some (Value.string e) := by
            simp [newConfigUpdate, lookup]
          simp only [List.filterMap_cons, List.filterMap_nil, hl, List.mem_singleton] at hs2
          subst hs2
          rcases encrypt_result A scm rnd newDSN s he with ⟨_, h⟩ | ⟨hp, h⟩ | ⟨_, _, enc, _, h⟩
          · exact Or.inl h
          · rw [h]; exact Or.inr hp
          · rw [h]; exact Or.inr (HasPrefix_append _ _)

end GptLoad
